import Mathlib

/-!
Verification development for the MCP tool subsystem of the arkos repository
(src/tool_module/tool_call.py). The definitions below are a shallow embedding
of that module: the JSON line codec used by MCPClient._send_request and
MCPClient._send_notification, the client lifecycle (start, stop, request
sending), and the manager layer (initialize_servers, call_tool, shutdown).
-/

namespace ArkosMCP

/-! JSON values, as built by the dictionaries passed to json.dumps. -/

mutual

inductive Json where
  | null : Json
  | bool : Bool → Json
  | num : Int → Json
  | str : String → Json
  | arr : JsonArr → Json
  | obj : JsonObj → Json

inductive JsonArr where
  | nil : JsonArr
  | cons : Json → JsonArr → JsonArr

inductive JsonObj where
  | nil : JsonObj
  | cons : String → Json → JsonObj → JsonObj

end

/-- Hexadecimal digit characters as produced by the \uXXXX escapes of
json.dumps; callers always pass values below 16. -/
def hexDigit : Nat → Char
  | 0 => '0'
  | 1 => '1'
  | 2 => '2'
  | 3 => '3'
  | 4 => '4'
  | 5 => '5'
  | 6 => '6'
  | 7 => '7'
  | 8 => '8'
  | 9 => '9'
  | 10 => 'a'
  | 11 => 'b'
  | 12 => 'c'
  | 13 => 'd'
  | 14 => 'e'
  | _ => 'f'

/-- Four hex digits of a code unit, as in a \uXXXX escape. -/
def hex4 (n : Nat) : List Char :=
  [hexDigit (n / 4096 % 16), hexDigit (n / 256 % 16), hexDigit (n / 16 % 16), hexDigit (n % 16)]

/-- String escaping of one character, following the default (ensure ascii)
behaviour of json.dumps: quote, backslash and the common control characters
get two-character escapes, other control characters and all non-ascii
characters get \uXXXX escapes (a surrogate pair beyond the basic plane),
and printable ascii passes through. -/
def escapeChar (c : Char) : List Char :=
  if c = '\"' then ['\\', '\"']
  else if c = '\\' then ['\\', '\\']
  else if c = '\n' then ['\\', 'n']
  else if c = '\r' then ['\\', 'r']
  else if c = '\t' then ['\\', 't']
  else if c.toNat = 8 then ['\\', 'b']
  else if c.toNat = 12 then ['\\', 'f']
  else if c.toNat < 32 ∨ c.toNat > 126 then
    if c.toNat < 65536 then '\\' :: 'u' :: hex4 c.toNat
    else ('\\' :: 'u' :: hex4 (55296 + (c.toNat - 65536) / 1024))
          ++ ('\\' :: 'u' :: hex4 (56320 + (c.toNat - 65536) % 1024))
  else [c]

/-- Escape every character of a string body. -/
def escString (cs : List Char) : List Char :=
  cs.foldr (fun c acc => escapeChar c ++ acc) []

/-- Serialization of a JSON string: quote, escaped body, quote. -/
def strChars (s : String) : List Char :=
  '\"' :: escString s.data ++ ['\"']

/-- Decimal digits of a positive natural number, most significant first. -/
def natToCharsAux (n : Nat) (acc : List Char) : List Char :=
  if h : n = 0 then acc
  else natToCharsAux (n / 10) (hexDigit (n % 10) :: acc)
termination_by n
decreasing_by exact Nat.div_lt_self (Nat.pos_of_ne_zero h) (by norm_num)

/-- Decimal rendering of a natural number. -/
def natToChars (n : Nat) : List Char :=
  if n = 0 then ['0'] else natToCharsAux n []

/-- Decimal rendering of an integer, as json.dumps renders int values. -/
def intToChars : Int → List Char
  | .ofNat n => natToChars n
  | .negSucc n => '-' :: natToChars (n + 1)

mutual

/-- Serialization of a JSON value exactly as json.dumps with its default
separators renders it: objects as key: value pairs joined by comma-space
inside braces, arrays joined by comma-space inside brackets. -/
def dumps : Json → List Char
  | .null => ['n', 'u', 'l', 'l']
  | .bool b => if b then ['t', 'r', 'u', 'e'] else ['f', 'a', 'l', 's', 'e']
  | .num n => intToChars n
  | .str s => strChars s
  | .arr a => '[' :: dumpsArr a ++ [']']
  | .obj o => '\x7b' :: dumpsObj o ++ ['\x7d']

/-- Array elements joined by comma-space. -/
def dumpsArr : JsonArr → List Char
  | .nil => []
  | .cons x .nil => dumps x
  | .cons x (.cons y ys) => dumps x ++ ',' :: ' ' :: dumpsArr (.cons y ys)

/-- Object fields joined by comma-space, each field as key colon space value. -/
def dumpsObj : JsonObj → List Char
  | .nil => []
  | .cons k v .nil => strChars k ++ ':' :: ' ' :: dumps v
  | .cons k v (.cons k2 v2 fs) =>
      strChars k ++ ':' :: ' ' :: dumps v ++ ',' :: ' ' :: dumpsObj (.cons k2 v2 fs)

end

/-- Keys of a JSON object in order. -/
def objKeys : JsonObj → List String
  | .nil => []
  | .cons k _ fs => k :: objKeys fs

/-- Fields of the request dictionary built at lines 207 to 212 of
tool_call.py, in insertion order: jsonrpc, id, method, params. -/
def requestFields (reqId : Int) (method : String) (params : Json) : JsonObj :=
  .cons "jsonrpc" (.str "2.0")
    (.cons "id" (.num reqId)
      (.cons "method" (.str method)
        (.cons "params" params .nil)))

/-- The request document sent by MCPClient._send_request. -/
def requestJson (reqId : Int) (method : String) (params : Json) : Json :=
  .obj (requestFields reqId method params)

/-- Mirrors line 217: request_line = json.dumps(request) + a newline. -/
def requestLine (reqId : Int) (method : String) (params : Json) : List Char :=
  dumps (requestJson reqId method params) ++ ['\n']

/-- Fields of the notification dictionary built at lines 233 to 237 of
tool_call.py: jsonrpc, method, params, with no id field. -/
def notificationFields (method : String) (params : Json) : JsonObj :=
  .cons "jsonrpc" (.str "2.0")
    (.cons "method" (.str method)
      (.cons "params" params .nil))

/-- The notification document sent by MCPClient._send_notification. -/
def notificationJson (method : String) (params : Json) : Json :=
  .obj (notificationFields method params)

/-- Mirrors line 241: notification_line = json.dumps(notification) + a newline. -/
def notificationLine (method : String) (params : Json) : List Char :=
  dumps (notificationJson method params) ++ ['\n']

/-! Client model: MCPServerConfig, MCPClient state and its operations. -/

/-- Mirrors the MCPServerConfig dataclass (lines 19 to 26). -/
structure MCPServerConfig where
  name : String
  command : String
  args : List String
  env : Option (List (String × String))
deriving DecidableEq

/-- Mirrors line 68: env = dict(self.config.env) if self.config.env else the
empty dictionary. A missing mapping and an empty mapping both yield the
empty dictionary, by Python truthiness. -/
def buildEnv (cfg : MCPServerConfig) : List (String × String) :=
  match cfg.env with
  | none => []
  | some e => if e.isEmpty then [] else e

/-- Semantics of the env argument of asyncio.create_subprocess_exec: passing
none inherits the host process environment, passing a mapping makes that
mapping the entire environment of the child. -/
def subprocessEnv (host : List (String × String)) (envArg : Option (List (String × String))) :
    List (String × String) :=
  match envArg with
  | none => host
  | some e => e

/-- The subprocess launch performed at lines 72 to 79: command, args, and the
env keyword argument, which is always the built override mapping. -/
structure LaunchCall where
  command : String
  args : List String
  envArg : Option (List (String × String))
deriving DecidableEq

/-- The launch call MCPClient.start makes for a given configuration. -/
def launchCallOf (cfg : MCPServerConfig) : LaunchCall :=
  ⟨cfg.command, cfg.args, some (buildEnv cfg)⟩

/-- Mutable state of an MCPClient: the subprocess handle (none when absent),
the request id counter, and the initialized flag. -/
structure ClientState where
  process : Option Unit
  requestId : Nat
  initialized : Bool
deriving DecidableEq

/-- A parsed JSON-RPC response line: its id and whether it carries an error
member. -/
structure Resp where
  id : Int
  isError : Bool
deriving DecidableEq

/-- The subprocess stdout as the client observes it: the responses still to be
delivered in order, then either end of file (readline returns an empty line)
or an open stream that never produces another line (readline never returns). -/
structure Stdout where
  lines : List Resp
  atEof : Bool
deriving DecidableEq

/-- Outcome of one _send_request call: the assigned request id together with
the response returned, the remaining stream and the new client state; or the
closed-connection error raised on an empty readline; or no return at all,
when readline waits forever on a silent open stream. -/
inductive SendResult where
  | ok : Nat → Resp → Stdout → ClientState → SendResult
  | closedConn : ClientState → SendResult
  | blocks : SendResult
deriving DecidableEq

/-- Mirrors MCPClient._send_request (lines 187 to 229): increment the request
id under the lock, write the request line, then read exactly one line from
stdout and return whatever response that line holds; the id of the response
is never compared with the id that was assigned. -/
def sendRequest (st : ClientState) (out : Stdout) : SendResult :=
  let rid := st.requestId + 1
  let st2 : ClientState := { st with requestId := rid }
  match out.lines with
  | r :: rest => .ok rid r ⟨rest, out.atEof⟩ st2
  | [] => if out.atEof then .closedConn st2 else .blocks

/-- Outcome of MCPClient.start: Ready with the resulting state and remaining
stream; a launch failure of the subprocess itself; a handshake failure on an
error payload in the initialize response; the closed-connection failure when
stdout is at end of file; or no return at all, when the server stays open
and never writes a line. -/
inductive StartOutcome where
  | ready : ClientState → Stdout → StartOutcome
  | launchFailed : StartOutcome
  | handshakeFailed : Stdout → StartOutcome
  | connClosed : StartOutcome
  | blocks : StartOutcome
deriving DecidableEq

/-- Mirrors MCPClient.start (lines 56 to 103): launch the subprocess, send
the initialize request and read its response with _send_request, fail on an
error payload, then send the initialized notification and set the
initialized flag. There is no timeout around the handshake read. -/
def start (launchOk : Bool) (out : Stdout) : StartOutcome :=
  if launchOk then
    match out.lines with
    | r :: rest =>
        if r.isError then .handshakeFailed ⟨rest, out.atEof⟩
        else .ready ⟨some (), 1, true⟩ ⟨rest, out.atEof⟩
    | [] => if out.atEof then .connClosed else .blocks
  else .launchFailed

/-- Mirrors MCPClient.stop (lines 105 to 118): when no process is present the
body is skipped entirely; otherwise the subprocess is terminated and the
process handle and initialized flag are cleared. -/
def stop (st : ClientState) : ClientState :=
  match st.process with
  | none => st
  | some _ => { process := none, requestId := st.requestId, initialized := false }

/-! Manager model: MCPToolManager.initialize_servers, call_tool, shutdown. -/

/-- One entry of the configuration mapping handed to MCPToolManager: the
command and args keys may be absent (their access at lines 286 and 287
raises KeyError in that case), and env is optional. -/
structure RawConfig where
  command : Option String
  args : Option (List String)
  env : Option (List (String × String))
deriving DecidableEq

/-- Runtime behaviour of one configured server, as the manager observes it:
the subprocess launch itself fails; the handshake inside client.start fails
after a launch; client.list_tools raises; or discovery returns a list of
tool entries, each carrying its name field or lacking it. -/
inductive ServerBehavior where
  | launchFailure : ServerBehavior
  | handshakeFailure : ServerBehavior
  | listToolsFailure : ServerBehavior
  | toolList : List (Option String) → ServerBehavior
deriving DecidableEq

inductive LogLevel where
  | debug : LogLevel
  | info : LogLevel
  | warning : LogLevel
  | error : LogLevel
deriving DecidableEq

structure LogEvent where
  level : LogLevel
  msg : String
deriving DecidableEq

/-- Assignment into a Python dict: replace the value when the key is present,
append the binding otherwise. -/
def dictInsert (d : List (String × String)) (k v : String) : List (String × String) :=
  if d.any (fun p => p.1 == k) then d.map (fun p => if p.1 == k then (k, v) else p)
  else d ++ [(k, v)]

/-- Lookup in a Python dict via dict.get: the bound value or none. -/
def dictGet (d : List (String × String)) (k : String) : Option String :=
  (d.find? (fun p => p.1 == k)).map (fun p => p.2)

/-- Mirrors the discovery loop at lines 296 to 299: each tool entry has its
name read (KeyError stops the loop when the field is absent), the registry
is updated in place, and an info-level registration message is logged.
Returns the updated registry, the log, and whether the loop completed. -/
def registerTools (server : String) :
    List (Option String) → List (String × String) → List LogEvent →
    List (String × String) × List LogEvent × Bool
  | [], reg, logs => (reg, logs, true)
  | none :: _, reg, logs => (reg, logs, false)
  | some n :: ts, reg, logs =>
      registerTools server ts (dictInsert reg n server)
        (logs ++ [⟨.info, "Registered tool " ++ n ++ " from " ++ server⟩])

/-- Observable state accumulated by MCPToolManager.initialize_servers: the
tool registry, the client table (server names), the servers whose subprocess
was started at some point, and the log. -/
structure InitState where
  registry : List (String × String)
  clients : List String
  launched : List String
  logs : List LogEvent
deriving DecidableEq

/-- One iteration of the loop at lines 282 to 305: build the config (KeyError
on a missing command or args key), start the client, discover and register
tools, and add the client to the table; any failure is caught, logged at
error level, and the loop continues with the next server. -/
def initServer (beh : ServerBehavior) (name : String) (cfg : RawConfig) (st : InitState) :
    InitState :=
  match cfg.command, cfg.args with
  | some _, some _ =>
      match beh with
      | .launchFailure =>
          { st with logs := st.logs ++ [⟨.error, "Failed to initialize server " ++ name⟩] }
      | .handshakeFailure =>
          { st with launched := st.launched ++ [name],
                    logs := st.logs ++ [⟨.error, "Failed to initialize server " ++ name⟩] }
      | .listToolsFailure =>
          { st with launched := st.launched ++ [name],
                    logs := st.logs ++ [⟨.error, "Failed to initialize server " ++ name⟩] }
      | .toolList ts =>
          let r := registerTools name ts st.registry st.logs
          if r.2.2 then
            { registry := r.1, clients := st.clients ++ [name],
              launched := st.launched ++ [name], logs := r.2.1 }
          else
            { registry := r.1, clients := st.clients,
              launched := st.launched ++ [name],
              logs := r.2.1 ++ [⟨.error, "Failed to initialize server " ++ name⟩] }
  | _, _ => { st with logs := st.logs ++ [⟨.error, "Failed to initialize server " ++ name⟩] }

/-- The per-server step of the fold over the configuration mapping. -/
def initStep (beh : String → ServerBehavior) (st : InitState) (p : String × RawConfig) :
    InitState :=
  initServer (beh p.1) p.1 p.2 st

/-- Mirrors MCPToolManager.initialize_servers (lines 269 to 310): process the
configured servers in order, each inside its own exception handler, then
raise the no-servers error exactly when the client table stayed empty. The
boolean result is true when initialization succeeded. -/
def initialize_servers (beh : String → ServerBehavior) (cfgs : List (String × RawConfig)) :
    InitState × Bool :=
  let st := cfgs.foldl (initStep beh) ⟨[], [], [], []⟩
  (st, !st.clients.isEmpty)

/-- The two Python exception types raised by MCPToolManager.call_tool. -/
inductive PyError where
  | valueError : String → PyError
  | runtimeError : String → PyError
deriving DecidableEq

/-- Result of delegating to MCPClient.call_tool on a connected client:
success, or a RuntimeError with the given message. -/
inductive ClientCallResult where
  | ok : ClientCallResult
  | failed : String → ClientCallResult
deriving DecidableEq

/-- Outcome of MCPToolManager.call_tool. -/
inductive CallOutcome where
  | success : CallOutcome
  | failure : PyError → CallOutcome
deriving DecidableEq

/-- Mirrors MCPToolManager.call_tool (lines 334 to 365): resolve the tool
name in the registry, raising ValueError when the lookup yields nothing
falsy included, then look the server up in the client table, raising
RuntimeError when it is absent, and only then delegate to the client. -/
def call_tool (st : InitState) (invoke : String → String → ClientCallResult) (tool : String) :
    CallOutcome :=
  match dictGet st.registry tool with
  | none => .failure (.valueError ("Unknown tool: " ++ tool))
  | some server =>
      if server = "" then .failure (.valueError ("Unknown tool: " ++ tool))
      else if server ∈ st.clients then
        match invoke server tool with
        | .ok => .success
        | .failed m => .failure (.runtimeError m)
      else .failure (.runtimeError ("Server " ++ server ++ " not connected"))

/-- Runtime state of a manager for the shutdown path: the client table with
each client state, and the tool registry. -/
structure RunState where
  clients : List (String × ClientState)
  registry : List (String × String)
deriving DecidableEq

/-- Mirrors MCPToolManager.shutdown (lines 367 to 378): stop every client in
the table, then clear the client table and the tool registry. Returns the
new manager state and the states of the stopped clients. -/
def shutdown (m : RunState) : RunState × List ClientState :=
  (⟨[], []⟩, m.clients.map (fun p => stop p.2))

/-! Predicates used to state the manager theorems. -/

/-- The config entry has both required keys. -/
def configValid (c : RawConfig) : Bool :=
  c.command.isSome && c.args.isSome

/-- The behaviour lets the server complete discovery and registration. -/
def behSucceeds : ServerBehavior → Bool
  | .toolList ts => ts.all Option.isSome
  | _ => false

/-- The behaviour gets as far as a started subprocess. -/
def behLaunches : ServerBehavior → Bool
  | .launchFailure => false
  | _ => true

/-- The server ends up in the client table. -/
def serverSucceeds (beh : String → ServerBehavior) (p : String × RawConfig) : Bool :=
  configValid p.2 && behSucceeds (beh p.1)

/-- The server has its subprocess started at some point. -/
def serverLaunches (beh : String → ServerBehavior) (p : String × RawConfig) : Bool :=
  configValid p.2 && behLaunches (beh p.1)

/-! Newline freedom of the codec output. -/

theorem hexDigit_ne_nl (n : Nat) : hexDigit n ≠ '\n' := by
  match n with
  | 0 | 1 | 2 | 3 | 4 | 5 | 6 | 7 | 8 | 9 | 10 | 11 | 12 | 13 | 14 => decide
  | (m + 15) => exact (by decide : ('f' : Char) ≠ '\n')

theorem nl_not_mem_hex4 (n : Nat) : '\n' ∉ hex4 n := by
  intro h
  simp only [hex4, List.mem_cons, List.not_mem_nil, or_false] at h
  rcases h with h | h | h | h <;> exact hexDigit_ne_nl _ h.symm

theorem nl_not_mem_escapeChar (c : Char) : '\n' ∉ escapeChar c := by
  have hx : ∀ m : Nat, '\n' ∉ ('\\' :: 'u' :: hex4 m) := by
    intro m h
    rcases List.mem_cons.mp h with h | h
    · exact absurd h (by decide)
    rcases List.mem_cons.mp h with h | h
    · exact absurd h (by decide)
    exact nl_not_mem_hex4 m h
  unfold escapeChar
  split_ifs with h1 h2 h3 h4 h5 h6 h7 h8 h9
  · decide
  · decide
  · decide
  · decide
  · decide
  · decide
  · decide
  · exact hx _
  · intro h
    rcases List.mem_append.mp h with h | h
    · exact hx _ h
    · exact hx _ h
  · intro h
    rcases List.mem_cons.mp h with h | h
    · exact h3 h.symm
    · exact absurd h (List.not_mem_nil _)

theorem escString_cons (c : Char) (cs : List Char) :
    escString (c :: cs) = escapeChar c ++ escString cs := rfl

theorem nl_not_mem_escString (cs : List Char) : '\n' ∉ escString cs := by
  induction cs with
  | nil => exact List.not_mem_nil _
  | cons c rest ih =>
    rw [escString_cons]
    intro h
    rcases List.mem_append.mp h with h | h
    · exact nl_not_mem_escapeChar c h
    · exact ih h

theorem nl_not_mem_strChars (s : String) : '\n' ∉ strChars s := by
  intro h
  rcases List.mem_cons.mp h with h | h
  · exact absurd h (by decide)
  rcases List.mem_append.mp h with h | h
  · exact nl_not_mem_escString _ h
  · exact absurd h (by decide)

theorem nl_not_mem_natToCharsAux (n : Nat) :
    ∀ acc : List Char, '\n' ∉ acc → '\n' ∉ natToCharsAux n acc := by
  induction n using Nat.strong_induction_on with
  | _ n ih =>
    intro acc hacc
    unfold natToCharsAux
    split
    next => exact hacc
    next h =>
      refine ih (n / 10) (Nat.div_lt_self (Nat.pos_of_ne_zero h) (by norm_num)) _ ?_
      intro hm
      rcases List.mem_cons.mp hm with hm | hm
      · exact hexDigit_ne_nl _ hm.symm
      · exact hacc hm

theorem nl_not_mem_natToChars (n : Nat) : '\n' ∉ natToChars n := by
  unfold natToChars
  split
  · decide
  · exact nl_not_mem_natToCharsAux n [] (List.not_mem_nil _)

theorem nl_not_mem_intToChars (n : Int) : '\n' ∉ intToChars n := by
  cases n with
  | ofNat m => exact nl_not_mem_natToChars m
  | negSucc m =>
    intro h
    rcases List.mem_cons.mp h with h | h
    · exact absurd h (by decide)
    · exact nl_not_mem_natToChars _ h

mutual

theorem nl_not_mem_dumps : ∀ j : Json, '\n' ∉ dumps j
  | .null => by simp only [dumps]; decide
  | .bool b => by cases b <;> simp only [dumps] <;> decide
  | .num n => by simp only [dumps]; exact nl_not_mem_intToChars n
  | .str s => by simp only [dumps]; exact nl_not_mem_strChars s
  | .arr a => by
      simp only [dumps]
      intro h
      rcases List.mem_cons.mp h with h | h
      · exact absurd h (by decide)
      rcases List.mem_append.mp h with h | h
      · exact nl_not_mem_dumpsArr a h
      · exact absurd h (by decide)
  | .obj o => by
      simp only [dumps]
      intro h
      rcases List.mem_cons.mp h with h | h
      · exact absurd h (by decide)
      rcases List.mem_append.mp h with h | h
      · exact nl_not_mem_dumpsObj o h
      · exact absurd h (by decide)

theorem nl_not_mem_dumpsArr : ∀ a : JsonArr, '\n' ∉ dumpsArr a
  | .nil => by simp only [dumpsArr]; exact List.not_mem_nil _
  | .cons x .nil => by simp only [dumpsArr]; exact nl_not_mem_dumps x
  | .cons x (.cons y ys) => by
      simp only [dumpsArr]
      intro h
      rcases List.mem_append.mp h with h | h
      · exact nl_not_mem_dumps x h
      rcases List.mem_cons.mp h with h | h
      · exact absurd h (by decide)
      rcases List.mem_cons.mp h with h | h
      · exact absurd h (by decide)
      · exact nl_not_mem_dumpsArr (.cons y ys) h

theorem nl_not_mem_dumpsObj : ∀ o : JsonObj, '\n' ∉ dumpsObj o
  | .nil => by simp only [dumpsObj]; exact List.not_mem_nil _
  | .cons k v .nil => by
      simp only [dumpsObj]
      intro h
      rcases List.mem_append.mp h with h | h
      · exact nl_not_mem_strChars k h
      rcases List.mem_cons.mp h with h | h
      · exact absurd h (by decide)
      rcases List.mem_cons.mp h with h | h
      · exact absurd h (by decide)
      · exact nl_not_mem_dumps v h
  | .cons k v (.cons k2 v2 fs) => by
      simp only [dumpsObj]
      intro h
      rcases List.mem_append.mp h with h | h
      · rcases List.mem_append.mp h with h | h
        · exact nl_not_mem_strChars k h
        rcases List.mem_cons.mp h with h | h
        · exact absurd h (by decide)
        rcases List.mem_cons.mp h with h | h
        · exact absurd h (by decide)
        · exact nl_not_mem_dumps v h
      · rcases List.mem_cons.mp h with h | h
        · exact absurd h (by decide)
        rcases List.mem_cons.mp h with h | h
        · exact absurd h (by decide)
        · exact nl_not_mem_dumpsObj (.cons k2 v2 fs) h

end

/-- C6: every request sent over the transport is serialized as exactly one
JSON document of the shape jsonrpc, id, method, params followed by a single
terminating newline, with no raw newline embedded in the document; a
notification is serialized the same way but omits the id field. -/
theorem c6_wire_framing (reqId : Int) (method : String) (params : Json) :
    requestLine reqId method params = dumps (requestJson reqId method params) ++ ['\n']
      ∧ '\n' ∉ dumps (requestJson reqId method params)
      ∧ objKeys (requestFields reqId method params) = ["jsonrpc", "id", "method", "params"]
      ∧ notificationLine method params = dumps (notificationJson method params) ++ ['\n']
      ∧ '\n' ∉ dumps (notificationJson method params)
      ∧ objKeys (notificationFields method params) = ["jsonrpc", "method", "params"] :=
  ⟨rfl, nl_not_mem_dumps _, rfl, rfl, nl_not_mem_dumps _, rfl⟩

/-- Witness for c6_wire_framing at a concrete request. -/
theorem c6_wire_framing_witness :
    requestLine 1 "tools/list" .null = dumps (requestJson 1 "tools/list" .null) ++ ['\n'] :=
  (c6_wire_framing 1 "tools/list" .null).1

/-- C1 counterexample: a response whose id differs from the freshly assigned
request id is not discarded. Here the call assigns request id 1, yet it is
resolved by the next line of the stream, which carries id 5. -/
theorem c1_counterexample :
    sendRequest ⟨some (), 0, true⟩ ⟨[⟨5, false⟩], true⟩
      = .ok 1 ⟨5, false⟩ ⟨[], true⟩ ⟨some (), 1, true⟩ := rfl

/-- C1 (amended): each _send_request call on a Ready connection assigns the
fresh id requestId + 1, but it suspends only until the next line of the
stream arrives and resolves its caller with that line whatever id the line
carries; no response is ever discarded for an id mismatch. -/
theorem c1_first_line_resolves (st : ClientState) (r : Resp) (rest : List Resp) (e : Bool) :
    sendRequest st ⟨r :: rest, e⟩
      = .ok (st.requestId + 1) r ⟨rest, e⟩ { st with requestId := st.requestId + 1 } := rfl

/-- C3 counterexample: with the subprocess launched and a server that keeps
stdout open but never writes a line, start never returns; no handshake
timeout bounds the initialize read. -/
theorem c3_counterexample : start true ⟨[], false⟩ = .blocks := rfl

/-- C3 (amended): start fails to terminate exactly when the launch succeeded
and the server keeps its stream open without producing a line; in every
other case it terminates, reaching Ready or failing on a launch error, an
error payload in the handshake response, or a closed stream. -/
theorem c3_start_blocks_iff (launchOk : Bool) (lines : List Resp) (e : Bool) :
    start launchOk ⟨lines, e⟩ = .blocks ↔ (launchOk = true ∧ lines = [] ∧ e = false) := by
  cases launchOk
  · simp [start]
  · cases lines with
    | nil => cases e <;> simp [start]
    | cons r rest => by_cases hr : r.isError <;> simp [start, hr]

/-- Witness for c3_start_blocks_iff at a concrete silent open stream. -/
theorem c3_start_blocks_iff_witness : start true ⟨[], false⟩ = .blocks :=
  (c3_start_blocks_iff true [] false).mpr ⟨rfl, rfl, rfl⟩

theorem stop_process_none (st : ClientState) : (stop st).process = none := by
  cases hp : st.process <;> simp [stop, hp]

/-- C5: stopping a never-started or already-stopped client is a no-op and
stop is idempotent; shutdown stops every client, leaves the client table and
tool registry empty, and a second shutdown is again error-free with nothing
left to stop. -/
theorem c5_idempotent_shutdown (st : ClientState) (m : RunState) :
    (st.process = none → stop st = st)
      ∧ stop (stop st) = stop st
      ∧ (stop st).process = none
      ∧ (shutdown m).1.clients = [] ∧ (shutdown m).1.registry = []
      ∧ (∀ c ∈ (shutdown m).2, c.process = none)
      ∧ shutdown (shutdown m).1 = (⟨[], []⟩, []) := by
  refine ⟨?_, ?_, stop_process_none st, rfl, rfl, ?_, rfl⟩
  · intro h; simp [stop, h]
  · cases hp : st.process <;> simp [stop, hp]
  · intro c hc
    rcases List.mem_map.mp hc with ⟨p, _, hpc⟩
    rw [← hpc]
    exact stop_process_none _

/-- Witness for c5_idempotent_shutdown on a closed client state. -/
theorem c5_idempotent_shutdown_witness :
    stop ⟨none, 0, false⟩ = ⟨none, 0, false⟩ :=
  (c5_idempotent_shutdown ⟨none, 0, false⟩ ⟨[], []⟩).1 rfl

/-- C9: the env argument of the subprocess launch is always the built
override mapping, so under the create_subprocess_exec semantics the child
environment equals exactly the configured overrides (empty when none are
configured), for every host environment: host variables are never
inherited unless copied into the overrides. -/
theorem c9_env_never_inherited (cfg : MCPServerConfig) (host : List (String × String)) :
    (launchCallOf cfg).envArg = some (buildEnv cfg)
      ∧ subprocessEnv host (launchCallOf cfg).envArg = cfg.env.getD [] := by
  refine ⟨rfl, ?_⟩
  cases he : cfg.env with
  | none => simp [subprocessEnv, launchCallOf, buildEnv, he]
  | some e => cases e <;> simp [subprocessEnv, launchCallOf, buildEnv, he]

/-! Dictionary lemmas. -/

theorem dictInsert_mem (d : List (String × String)) (k v : String) (q : String × String)
    (h : q ∈ dictInsert d k v) : q ∈ d ∨ q = (k, v) := by
  unfold dictInsert at h
  split at h
  · rcases List.mem_map.mp h with ⟨p, hp, hq⟩
    by_cases hk : (p.1 == k) = true
    · right; rw [if_pos hk] at hq; exact hq.symm
    · left; rw [if_neg hk] at hq; exact hq ▸ hp
  · rcases List.mem_append.mp h with h | h
    · exact Or.inl h
    · right; simpa using h

theorem find_in_updated (k v : String) (d : List (String × String))
    (hd : d.any (fun p => p.1 == k) = true) :
    (d.map (fun p => if p.1 == k then (k, v) else p)).find? (fun p => p.1 == k)
      = some (k, v) := by
  induction d with
  | nil => simp at hd
  | cons p rest ih =>
    by_cases hk : (p.1 == k) = true
    · simp only [List.map_cons, if_pos hk]
      exact List.find?_cons_of_pos _ (by simp)
    · have hd2 : rest.any (fun p => p.1 == k) = true := by
        rcases List.any_eq_true.mp hd with ⟨q, hq, hqk⟩
        rcases List.mem_cons.mp hq with hq | hq
        · exact absurd (hq ▸ hqk) hk
        · exact List.any_eq_true.mpr ⟨q, hq, hqk⟩
      simp only [List.map_cons, if_neg hk]
      have hfind := @List.find?_cons_of_neg _ (fun q => q.1 == k) p
        (List.map (fun q => if q.1 == k then (k, v) else q) rest) hk
      rw [hfind]
      exact ih hd2

theorem find_in_appended (k v : String) (d : List (String × String))
    (hd : d.any (fun p => p.1 == k) = false) :
    (d ++ [(k, v)]).find? (fun p => p.1 == k) = some (k, v) := by
  induction d with
  | nil => simp [List.find?]
  | cons p rest ih =>
    have hp : ((p.1 == k) = false) ∧ rest.any (fun p => p.1 == k) = false := by
      simpa using hd
    have hfind := @List.find?_cons_of_neg _ (fun q => q.1 == k) p
      (rest ++ [(k, v)]) (by simp [hp.1])
    rw [List.cons_append, hfind]
    exact ih hp.2

theorem dictGet_dictInsert (d : List (String × String)) (k v : String) :
    dictGet (dictInsert d k v) k = some v := by
  unfold dictGet dictInsert
  cases hd : d.any (fun p => p.1 == k) with
  | true => rw [if_pos rfl, find_in_updated k v d hd]; rfl
  | false => rw [if_neg (by simp), find_in_appended k v d hd]; rfl

/-! Lemmas about the discovery loop. -/

theorem registerTools_ok (server : String) (ts : List (Option String)) :
    ∀ reg logs, (registerTools server ts reg logs).2.2 = ts.all Option.isSome := by
  induction ts with
  | nil => intro reg logs; rfl
  | cons t rest ih =>
    intro reg logs
    cases t with
    | none => simp [registerTools]
    | some n => simp [registerTools, ih]

theorem registerTools_reg_mem (server : String) (ts : List (Option String)) :
    ∀ reg logs t s, (t, s) ∈ (registerTools server ts reg logs).1 →
      (t, s) ∈ reg ∨ (s = server ∧ some t ∈ ts) := by
  induction ts with
  | nil => intro reg logs t s h; exact Or.inl h
  | cons t0 rest ih =>
    intro reg logs t s h
    cases t0 with
    | none => exact Or.inl h
    | some n =>
      rcases ih _ _ t s h with h1 | h1
      · rcases dictInsert_mem reg n server (t, s) h1 with h2 | h2
        · exact Or.inl h2
        · right
          refine ⟨congrArg Prod.snd h2, ?_⟩
          have ht : t = n := congrArg Prod.fst h2
          rw [ht]
          exact List.mem_cons_self _ _
      · exact Or.inr ⟨h1.1, List.mem_cons_of_mem _ h1.2⟩

theorem registerTools_logs_mem (server : String) (ts : List (Option String)) :
    ∀ reg logs e, e ∈ (registerTools server ts reg logs).2.1 →
      e ∈ logs ∨ e.level = .info := by
  induction ts with
  | nil => intro reg logs e h; exact Or.inl h
  | cons t0 rest ih =>
    intro reg logs e h
    cases t0 with
    | none => exact Or.inl h
    | some n =>
      rcases ih _ _ e h with h1 | h1
      · rcases List.mem_append.mp h1 with h2 | h2
        · exact Or.inl h2
        · right; rw [List.mem_singleton.mp h2]
      · exact Or.inr h1

/-! Lemmas about one server initialization step. -/

theorem initServer_clients (b : ServerBehavior) (n : String) (c : RawConfig) (st : InitState) :
    (initServer b n c st).clients
      = st.clients ++ (if configValid c && behSucceeds b then [n] else []) := by
  obtain ⟨cmd, args, env⟩ := c
  cases cmd with
  | none => cases args <;> simp [initServer, configValid]
  | some cv =>
    cases args with
    | none => simp [initServer, configValid]
    | some av =>
      cases b with
      | launchFailure => simp [initServer, configValid, behSucceeds]
      | handshakeFailure => simp [initServer, configValid, behSucceeds]
      | listToolsFailure => simp [initServer, configValid, behSucceeds]
      | toolList ts =>
        cases hts : ts.all Option.isSome with
        | true =>
          simp [initServer, configValid, behSucceeds, registerTools_ok, hts]
        | false =>
          simp [initServer, configValid, behSucceeds, registerTools_ok, hts]

theorem initServer_launched (b : ServerBehavior) (n : String) (c : RawConfig) (st : InitState) :
    (initServer b n c st).launched
      = st.launched ++ (if configValid c && behLaunches b then [n] else []) := by
  obtain ⟨cmd, args, env⟩ := c
  cases cmd with
  | none => cases args <;> simp [initServer, configValid]
  | some cv =>
    cases args with
    | none => simp [initServer, configValid]
    | some av =>
      cases b with
      | launchFailure => simp [initServer, configValid, behLaunches]
      | handshakeFailure => simp [initServer, configValid, behLaunches]
      | listToolsFailure => simp [initServer, configValid, behLaunches]
      | toolList ts =>
        cases hts : ts.all Option.isSome with
        | true =>
          simp [initServer, configValid, behLaunches, registerTools_ok, hts]
        | false =>
          simp [initServer, configValid, behLaunches, registerTools_ok, hts]

theorem initServer_reg_mem (b : ServerBehavior) (n : String) (c : RawConfig) (st : InitState)
    (t s : String) (h : (t, s) ∈ (initServer b n c st).registry) :
    (t, s) ∈ st.registry
      ∨ (s = n ∧ configValid c = true ∧ ∃ ts, b = .toolList ts ∧ some t ∈ ts) := by
  obtain ⟨cmd, args, env⟩ := c
  cases cmd with
  | none => cases args <;> (left; simpa [initServer] using h)
  | some cv =>
    cases args with
    | none => left; simpa [initServer] using h
    | some av =>
      cases b with
      | launchFailure => left; simpa [initServer] using h
      | handshakeFailure => left; simpa [initServer] using h
      | listToolsFailure => left; simpa [initServer] using h
      | toolList ts =>
        have hreg : (initServer (.toolList ts) n ⟨some cv, some av, env⟩ st).registry
            = (registerTools n ts st.registry st.logs).1 := by
          simp only [initServer]
          split <;> rfl
        rw [hreg] at h
        rcases registerTools_reg_mem n ts st.registry st.logs t s h with h1 | h1
        · exact Or.inl h1
        · exact Or.inr ⟨h1.1, rfl, ts, rfl, h1.2⟩

/-! Lemmas about the fold over all configured servers. -/

theorem foldl_clients (beh : String → ServerBehavior) (cfgs : List (String × RawConfig)) :
    ∀ st : InitState, (cfgs.foldl (initStep beh) st).clients
      = st.clients ++ (cfgs.filter (serverSucceeds beh)).map Prod.fst := by
  induction cfgs with
  | nil => intro st; simp
  | cons p rest ih =>
    intro st
    rw [List.foldl_cons, ih, List.filter_cons]
    have hstep : (initStep beh st p).clients
        = st.clients ++ (if serverSucceeds beh p then [p.1] else []) :=
      initServer_clients (beh p.1) p.1 p.2 st
    rw [hstep]
    cases hs : serverSucceeds beh p with
    | true => simp [hs]
    | false => simp [hs]

theorem foldl_launched (beh : String → ServerBehavior) (cfgs : List (String × RawConfig)) :
    ∀ st : InitState, (cfgs.foldl (initStep beh) st).launched
      = st.launched ++ (cfgs.filter (serverLaunches beh)).map Prod.fst := by
  induction cfgs with
  | nil => intro st; simp
  | cons p rest ih =>
    intro st
    rw [List.foldl_cons, ih, List.filter_cons]
    have hstep : (initStep beh st p).launched
        = st.launched ++ (if serverLaunches beh p then [p.1] else []) :=
      initServer_launched (beh p.1) p.1 p.2 st
    rw [hstep]
    cases hs : serverLaunches beh p with
    | true => simp [hs]
    | false => simp [hs]

theorem foldl_reg_mem (beh : String → ServerBehavior) (cfgs : List (String × RawConfig)) :
    ∀ (st : InitState) (t s : String), (t, s) ∈ (cfgs.foldl (initStep beh) st).registry →
      (t, s) ∈ st.registry
        ∨ ∃ p ∈ cfgs, p.1 = s ∧ configValid p.2 = true
            ∧ ∃ ts, beh p.1 = .toolList ts ∧ some t ∈ ts := by
  induction cfgs with
  | nil => intro st t s h; exact Or.inl h
  | cons p rest ih =>
    intro st t s h
    rw [List.foldl_cons] at h
    rcases ih _ t s h with h1 | h1
    · rcases initServer_reg_mem (beh p.1) p.1 p.2 st t s h1 with h2 | h2
      · exact Or.inl h2
      · exact Or.inr ⟨p, List.mem_cons_self _ _, h2.1.symm, h2.2.1, h2.2.2⟩
    · rcases h1 with ⟨q, hq, hrest⟩
      exact Or.inr ⟨q, List.mem_cons_of_mem _ hq, hrest⟩

/-- C2 (amended): per-server failures never abort initialization of the
other servers: the client table ends up holding exactly the servers that
fully succeeded, initialization fails with the no-servers error exactly when
the client table is empty, equivalently exactly when every configured server
failed, and the registry holds only tools actually reported by discovery of
a configured server with valid keys — though a server whose discovery fails
midway can leave its already-registered tools behind, so the registry is not
limited to tools of servers that succeeded. -/
theorem c2_initialization_isolation (beh : String → ServerBehavior)
    (cfgs : List (String × RawConfig)) :
    (initialize_servers beh cfgs).1.clients
        = (cfgs.filter (serverSucceeds beh)).map Prod.fst
      ∧ ((initialize_servers beh cfgs).2 = false
          ↔ (initialize_servers beh cfgs).1.clients = [])
      ∧ ((initialize_servers beh cfgs).2 = false
          ↔ ∀ p ∈ cfgs, serverSucceeds beh p = false)
      ∧ (∀ t s, (t, s) ∈ (initialize_servers beh cfgs).1.registry →
          ∃ p ∈ cfgs, p.1 = s ∧ configValid p.2 = true
            ∧ ∃ ts, beh p.1 = .toolList ts ∧ some t ∈ ts) := by
  have hc : (initialize_servers beh cfgs).1.clients
      = (cfgs.filter (serverSucceeds beh)).map Prod.fst := by
    simpa [initialize_servers] using foldl_clients beh cfgs ⟨[], [], [], []⟩
  have hempty : (initialize_servers beh cfgs).2 = false
      ↔ (initialize_servers beh cfgs).1.clients = [] := by
    simp [initialize_servers, List.isEmpty_iff]
  refine ⟨hc, hempty, ?_, ?_⟩
  · rw [hempty, hc]
    constructor
    · intro hnil p hp
      have hf : cfgs.filter (serverSucceeds beh) = [] := List.map_eq_nil_iff.mp hnil
      have := List.filter_eq_nil_iff.mp hf p hp
      simpa using this
    · intro hall
      rw [List.map_eq_nil_iff, List.filter_eq_nil_iff]
      intro p hp
      simpa using hall p hp
  · intro t s h
    have h0 : (t, s) ∈ (cfgs.foldl (initStep beh) ⟨[], [], [], []⟩).registry := by
      simpa [initialize_servers] using h
    rcases foldl_reg_mem beh cfgs ⟨[], [], [], []⟩ t s h0 with h1 | h1
    · exact absurd h1 (List.not_mem_nil _)
    · exact h1

/-- Witness for c2_initialization_isolation: one configured server that
succeeds, with its registered tool traced back to its discovery. -/
theorem c2_initialization_isolation_witness :
    ∃ p ∈ [("s", (⟨some "c", some [], none⟩ : RawConfig))], p.1 = "s"
      ∧ configValid p.2 = true
      ∧ ∃ ts, (fun _ : String => ServerBehavior.toolList [some "t"]) p.1
          = ServerBehavior.toolList ts ∧ some "t" ∈ ts :=
  (c2_initialization_isolation (fun _ => ServerBehavior.toolList [some "t"])
      [("s", ⟨some "c", some [], none⟩)]).2.2.2 "t" "s" (by decide)

/-- C2 counterexample: server s1 fails during discovery after its tool t1
was registered, server s2 succeeds; initialization succeeds overall, yet the
registry still contains t1 from the failed server s1, so the registry is not
limited to tools of the servers that succeeded. -/
theorem c2_counterexample :
    (("t1", "s1") ∈ (initialize_servers
          (fun s => if s = "s1" then .toolList [some "t1", none] else .toolList [some "t2"])
          [("s1", ⟨some "c", some [], none⟩), ("s2", ⟨some "c", some [], none⟩)]).1.registry)
      ∧ ((initialize_servers
          (fun s => if s = "s1" then .toolList [some "t1", none] else .toolList [some "t2"])
          [("s1", ⟨some "c", some [], none⟩), ("s2", ⟨some "c", some [], none⟩)]).1.clients.contains
            "s1") = false
      ∧ (initialize_servers
          (fun s => if s = "s1" then .toolList [some "t1", none] else .toolList [some "t2"])
          [("s1", ⟨some "c", some [], none⟩), ("s2", ⟨some "c", some [], none⟩)]).2 = true := by
  decide

/-- C4 (amended): a second registration of the same tool name overwrites the
prior entry, so resolution returns the last registering server, and a
collision is never a hard failure — registration only fails on an entry
lacking its name field; but no warning is logged: the discovery loop emits
only info-level registration messages. -/
theorem c4_last_wins_no_warning :
    (∀ d k v, dictGet (dictInsert d k v) k = some v)
      ∧ (∀ server ts reg logs e, e ∈ (registerTools server ts reg logs).2.1 →
          e ∈ logs ∨ e.level = .info)
      ∧ (∀ server ts reg logs, (registerTools server ts reg logs).2.2
          = ts.all Option.isSome) :=
  ⟨dictGet_dictInsert,
   fun server ts reg logs e => registerTools_logs_mem server ts reg logs e,
   fun server ts reg logs => registerTools_ok server ts reg logs⟩

/-- Witness for c4_last_wins_no_warning: a concrete collision resolves to the
second server, and a concrete registration log event is info-level. -/
theorem c4_last_wins_no_warning_witness :
    dictGet (dictInsert (dictInsert [] "t" "s1") "t" "s2") "t" = some "s2"
      ∧ ((⟨.info, "Registered tool t from s"⟩ : LogEvent) ∈ ([] : List LogEvent)
          ∨ (⟨.info, "Registered tool t from s"⟩ : LogEvent).level = .info) :=
  ⟨c4_last_wins_no_warning.1 (dictInsert [] "t" "s1") "t" "s2",
   c4_last_wins_no_warning.2.1 "s" [some "t"] [] [] ⟨.info, "Registered tool t from s"⟩
     (by decide)⟩

/-- C4 counterexample: two servers both expose tool t; resolution returns
the second server, but the produced log contains no warning-level event at
all, refuting the claimed logged warning on collision. -/
theorem c4_counterexample :
    dictGet (initialize_servers (fun _ => ServerBehavior.toolList [some "t"])
        [("s1", ⟨some "c", some [], none⟩), ("s2", ⟨some "c", some [], none⟩)]).1.registry "t"
      = some "s2"
      ∧ ((initialize_servers (fun _ => ServerBehavior.toolList [some "t"])
        [("s1", ⟨some "c", some [], none⟩), ("s2", ⟨some "c", some [], none⟩)]).1.logs.all
          (fun e => !(e.level == LogLevel.warning))) = true := by
  decide

/-- C7 (amended): call_tool reports an unknown tool name as a ValueError and
a not-connected server as a RuntimeError — two distinct reported failure
types, revealing which internal lookup failed — while preserving the tool or
server name in the diagnostic message. -/
theorem c7_error_translation (st : InitState) (invoke : String → String → ClientCallResult)
    (tool server : String) :
    (dictGet st.registry tool = none →
        call_tool st invoke tool = .failure (.valueError ("Unknown tool: " ++ tool)))
      ∧ (dictGet st.registry tool = some server → server ≠ "" → server ∉ st.clients →
        call_tool st invoke tool
          = .failure (.runtimeError ("Server " ++ server ++ " not connected"))) := by
  constructor
  · intro h
    simp [call_tool, h]
  · intro h h1 h2
    simp [call_tool, h, h1, h2]

/-- Witness for c7_error_translation on a registry holding tool t at the
never-connected server s. -/
theorem c7_error_translation_witness :
    call_tool ⟨[("t", "s")], [], [], []⟩ (fun _ _ => .ok) "u"
        = .failure (.valueError ("Unknown tool: " ++ "u"))
      ∧ call_tool ⟨[("t", "s")], [], [], []⟩ (fun _ _ => .ok) "t"
        = .failure (.runtimeError ("Server " ++ "s" ++ " not connected")) :=
  ⟨(c7_error_translation ⟨[("t", "s")], [], [], []⟩ (fun _ _ => .ok) "u" "x").1 (by decide),
   (c7_error_translation ⟨[("t", "s")], [], [], []⟩ (fun _ _ => .ok) "t" "s").2
     (by decide) (by decide) (by decide)⟩

/-- C7 counterexample: on the same manager state, the unknown-tool failure is
a ValueError while the connection-level failure is a RuntimeError: two
distinct reported failure types, not one. -/
theorem c7_counterexample :
    call_tool ⟨[("t", "s")], [], [], []⟩ (fun _ _ => .ok) "u"
        = .failure (.valueError "Unknown tool: u")
      ∧ call_tool ⟨[("t", "s")], [], [], []⟩ (fun _ _ => .ok) "t"
        = .failure (.runtimeError "Server s not connected") := by
  decide

/-- C8 (amended): the command and args keys are checked per server, as each
server is processed inside its own exception handler, not globally before
any launch: the launched servers are exactly the configured servers that
have both keys and whose subprocess launch does not itself fail, so a server
lacking a key is itself never launched while the remaining servers still
are. -/
theorem c8_per_server_validation (beh : String → ServerBehavior)
    (cfgs : List (String × RawConfig)) :
    (initialize_servers beh cfgs).1.launched
      = (cfgs.filter (serverLaunches beh)).map Prod.fst := by
  simpa [initialize_servers] using foldl_launched beh cfgs ⟨[], [], [], []⟩

/-- C8 counterexample: the first configured server lacks the command key,
yet the subprocess of the second server is still started, refuting the claim
that no subprocess of any server is started in that case. -/
theorem c8_counterexample :
    (initialize_servers (fun _ => ServerBehavior.toolList [some "t"])
        [("bad", ⟨none, some [], none⟩), ("good", ⟨some "c", some [], none⟩)]).1.launched
      = ["good"] := by
  decide

/-- C10: when discovery of server s1 hits an entry lacking the name field
after tool t1 was registered, t1 stays in the registry mapped to s1, s1 is
never added to the client table, and a later call_tool on t1 fails with the
server-not-connected RuntimeError whatever the connected clients would
answer — the failure is decided before any I/O is performed. -/
theorem c10_orphan_registry_entries (s1 s2 t1 t2 : String)
    (invoke : String → String → ClientCallResult)
    (h12 : s1 ≠ s2) (ht : t1 ≠ t2) (hs : s1 ≠ "") :
    ((t1, s1) ∈ (initialize_servers
        (fun s => if s = s1 then .toolList [some t1, none] else .toolList [some t2])
        [(s1, ⟨some "c", some [], none⟩), (s2, ⟨some "c", some [], none⟩)]).1.registry)
      ∧ dictGet (initialize_servers
        (fun s => if s = s1 then .toolList [some t1, none] else .toolList [some t2])
        [(s1, ⟨some "c", some [], none⟩), (s2, ⟨some "c", some [], none⟩)]).1.registry t1
          = some s1
      ∧ s1 ∉ (initialize_servers
        (fun s => if s = s1 then .toolList [some t1, none] else .toolList [some t2])
        [(s1, ⟨some "c", some [], none⟩), (s2, ⟨some "c", some [], none⟩)]).1.clients
      ∧ call_tool (initialize_servers
        (fun s => if s = s1 then .toolList [some t1, none] else .toolList [some t2])
        [(s1, ⟨some "c", some [], none⟩), (s2, ⟨some "c", some [], none⟩)]).1 invoke t1
          = .failure (.runtimeError ("Server " ++ s1 ++ " not connected")) := by
  have h21 : ¬(s2 = s1) := fun h => h12 h.symm
  have hb : (t1 == t2) = false := beq_eq_false_iff_ne.mpr ht
  have hstate : (initialize_servers
      (fun s => if s = s1 then .toolList [some t1, none] else .toolList [some t2])
      [(s1, ⟨some "c", some [], none⟩), (s2, ⟨some "c", some [], none⟩)]).1.registry
        = [(t1, s1), (t2, s2)]
      ∧ (initialize_servers
      (fun s => if s = s1 then .toolList [some t1, none] else .toolList [some t2])
      [(s1, ⟨some "c", some [], none⟩), (s2, ⟨some "c", some [], none⟩)]).1.clients
        = [s2] := by
    constructor <;>
      simp [initialize_servers, initStep, initServer, registerTools, dictInsert, h21, hb]
  refine ⟨?_, ?_, ?_, ?_⟩
  · rw [hstate.1]; exact List.mem_cons_self _ _
  · rw [hstate.1]
    simp [dictGet, List.find?]
  · rw [hstate.2]
    simp [h12]
  · have hget : dictGet (initialize_servers
        (fun s => if s = s1 then .toolList [some t1, none] else .toolList [some t2])
        [(s1, ⟨some "c", some [], none⟩), (s2, ⟨some "c", some [], none⟩)]).1.registry t1
          = some s1 := by
      rw [hstate.1]
      simp [dictGet, List.find?]
    simp [call_tool, hget, hs, hstate.2, h12]

/-- Witness for c10_orphan_registry_entries at concrete names. -/
theorem c10_orphan_registry_entries_witness :
    call_tool (initialize_servers
        (fun s => if s = "s1" then .toolList [some "t1", none] else .toolList [some "t2"])
        [("s1", ⟨some "c", some [], none⟩), ("s2", ⟨some "c", some [], none⟩)]).1
        (fun _ _ => ClientCallResult.ok) "t1"
      = .failure (.runtimeError ("Server " ++ "s1" ++ " not connected")) :=
  (c10_orphan_registry_entries "s1" "s2" "t1" "t2" (fun _ _ => ClientCallResult.ok)
      (by decide) (by decide) (by decide)).2.2.2

end ArkosMCP
